import Mathlib

/-!
Verification of `port_list_tool.py` (docker-portscan).

The Python source is shallowly embedded below.  External collaborators that
the script only calls (the regular-expression engine behind `re.search`,
the YAML parser behind `yaml.safe_load`, the docker client, the subprocess
exit status of `docker-compose`) are abstracted as explicit parameters:
a matcher oracle, a per-file parsed-content oracle, a running-port map, and
a success oracle.  Everything the script computes itself is translated
function by function.
-/

namespace PortScan

/-! ## Basic Python-semantics helpers -/

/-- Characters removed by Python `str.strip()` (ASCII whitespace). -/
def pyIsSpace (c : Char) : Bool :=
  c = ' ' ∨ c = '\t' ∨ c = '\n' ∨ c = '\r' ∨ c = '\x0b' ∨ c = '\x0c'

/-- Python `str.strip()`: drop leading and trailing whitespace. -/
def pyStrip (s : String) : String :=
  String.mk (((s.data.dropWhile pyIsSpace).reverse.dropWhile pyIsSpace).reverse)

/-- Python `str.lower()` (ASCII case folding suffices for the tokens used). -/
def pyLower (s : String) : String :=
  String.mk (s.data.map Char.toLower)

/-- Value of a nonempty all-digit character list, `none` otherwise. -/
def digitsVal : List Char → Option Nat
  | [] => none
  | cs =>
    if cs.all Char.isDigit then
      some (cs.foldl (fun acc c => 10 * acc + (c.toNat - '0'.toNat)) 0)
    else none

/-- Python `int(s)` on an already-stripped string: optional sign followed by
digits; raises (here: `none`) otherwise.  Underscore digit separators are
not modelled (no claim involves them). -/
def pyInt? (s : String) : Option Int :=
  match s.data with
  | [] => none
  | c :: rest =>
    if c = '-' then (digitsVal rest).map (fun n => -(n : Int))
    else if c = '+' then (digitsVal rest).map (fun n => (n : Int))
    else (digitsVal (c :: rest)).map (fun n => (n : Int))

/-- Python list indexing `xs[k]`: nonnegative indices from the front,
negative indices from the end; `none` models `IndexError`. -/
def pyIndex (xs : List String) (k : Int) : Option String :=
  if 0 ≤ k then xs.get? k.toNat
  else if -k ≤ (xs.length : Int) then xs.get? ((xs.length : Int) + k).toNat
  else none

/-! ## `PortIndex` enum and host-segment extraction (source lines 8-10, 44) -/

inductive PortIndex where
  | HOST
  | CONTAINER
deriving DecidableEq

/-- `PortIndex.HOST.value = 0`, `PortIndex.CONTAINER.value = 1`. -/
def PortIndex.value : PortIndex → Nat
  | .HOST => 0
  | .CONTAINER => 1

/-- Python `s.split(sep)` for a single-character separator, on the
character list.  `split` always returns at least one (possibly empty)
segment. -/
def splitOnChar (sep : Char) : List Char → List (List Char)
  | [] => [[]]
  | c :: rest =>
    let r := splitOnChar sep rest
    if c = sep then [] :: r
    else
      match r with
      | h :: t => (c :: h) :: t
      | [] => [[c]]

/-- `port.split(":")[PortIndex.HOST.value]` (source line 44): the segment
before the first colon, or the whole token when it has no colon. -/
def hostSeg (port : String) : String :=
  String.mk (((splitOnChar ':' port.data).getD PortIndex.HOST.value []))

/-! ## `get_ports_from_docker_compose` (source lines 33-49)

The YAML parser is external; a compose file's parsed content is an oracle
value of type `FileContent`.  `unreadable` models `open`/`yaml.safe_load`
raising, or a document on which `.get("services", ...)`/`.items()` raises.
A port entry that is not a string (`PortToken.nonStr`) makes
`port.split(":")` raise `AttributeError`; a `ports` value that is not a
list (`PortsField.invalid`) makes the `for port in ...` comprehension
raise.  Any of these aborts processing of that one file (the `except`
on line 47 spans the whole per-file block). -/

inductive PortToken where
  | str (s : String)
  | nonStr
deriving DecidableEq

inductive PortsField where
  | absent
  | present (toks : List PortToken)
  | invalid
deriving DecidableEq

inductive FileContent where
  | unreadable
  | doc (services : List (String × PortsField))
deriving DecidableEq

/-- One port entry: `port.split(":")[PortIndex.HOST.value]`, raising
(`none`) on a non-string scalar. -/
def extractToken : PortToken → Option String
  | .str s => some (hostSeg s)
  | .nonStr => none

/-- The per-file loop of lines 41-44: build `file_ports` in service order;
`none` models an exception escaping to the `except` handler. -/
def buildFilePorts : List (String × PortsField) → Option (List (String × List String))
  | [] => some []
  | (name, pf) :: rest =>
    match pf with
    | .absent => buildFilePorts rest
    | .invalid => none
    | .present toks =>
      match toks.mapM extractToken with
      | none => none
      | some hostPorts => (buildFilePorts rest).map (fun r => (name, hostPorts) :: r)

/-- `get_ports_from_docker_compose(files)` (lines 33-49): per-file, skip on
any exception, and record `file_ports` only when nonempty (`if file_ports:`
on line 45).  The returned `ports` dict is modelled as an association list
in insertion order. -/
def get_ports_from_docker_compose (content : String → FileContent) :
    List String → List (String × List (String × List String))
  | [] => []
  | f :: rest =>
    let tail := get_ports_from_docker_compose content rest
    match content f with
    | .unreadable => tail
    | .doc services =>
      match buildFilePorts services with
      | none => tail
      | some fp => if fp.isEmpty then tail else (f, fp) :: tail

/-- A compose file whose processing raises (unreadable document, or any
service whose ports extraction fails). -/
def fileFails : FileContent → Prop
  | .unreadable => True
  | .doc services => buildFilePorts services = none

/-! ## Reconciliation inside `list_ports` (source lines 119-125) -/

/-- `[p for c in running_ports.values() for p in c]` (line 123): the
concatenation of every running container's host-port list. -/
def flattenRunningPorts (running : List (String × List String)) : List String :=
  (running.map Prod.snd).flatten

/-- `[port for port in ports if port not in [p for c in running_ports.values() for p in c]]`
(line 123). -/
def unusedPortsFor (declared : List String) (running : List (String × List String)) :
    List String :=
  declared.filter (fun port => decide (port ∉ flattenRunningPorts running))

/-- The unused-port report of lines 119-125 as data: one entry per
(file, service) whose filtered list is nonempty (`if unused_ports:` on
line 124), in iteration order. -/
def unusedReport (index : List (String × List (String × List String)))
    (running : List (String × List String)) : List (String × String × List String) :=
  index.flatMap (fun fileSvcs =>
    fileSvcs.2.filterMap (fun svcPorts =>
      let u := unusedPortsFor svcPorts.2 running
      if u.isEmpty then none else some (fileSvcs.1, svcPorts.1, u)))

/-- Written from the spec's words, for comparison with `unusedPortsFor`:
the declared list minus the union of all running-container port lists,
order preserved, no deduplication. -/
def specUnusedPorts (declared : List String) (running : List (String × List String)) :
    List String :=
  declared.filter (fun port => decide (∀ cp ∈ running, port ∉ cp.2))

/-! ## `prompt_user_action` and `execute_docker_compose_command`
(source lines 64-102)

Console I/O is split into a pure transition function driven by one input
token per prompt (the spec's own suggested decomposition).  The subprocess
exit status of `docker-compose -f file action` is an oracle
`ok : file → action → Bool`; `execute_docker_compose_command` catches
`CalledProcessError` itself (lines 66-70), so it always returns, reporting
success or failure. -/

inductive SelTarget where
  | single (file : String)
  | bulk
deriving DecidableEq

inductive PromptState where
  | awaitingSelection
  | awaitingAction (target : SelTarget)
  | exited
deriving DecidableEq

/-- Observable effects of one transition: a command run against one file
(with its reported success), or one of the two diagnostic messages. -/
inductive Effect where
  | ran (file : String) (action : String) (success : Bool)
  | invalidSelection
  | invalidAction
deriving DecidableEq

/-- The three recognized verbs of lines 86 and 97. -/
def validActions : List String := ["start", "stop", "restart"]

/-- `execute_docker_compose_command(file_path, command)` (lines 64-70):
run the subprocess and report; never raises. -/
def execute_docker_compose_command (ok : String → String → Bool)
    (file action : String) : Effect :=
  .ran file action (ok file action)

/-- The selection prompt of lines 81-94: quit token, bulk token, or
`int(choice)` then `docker_compose_files[choice - 1]` with Python index
semantics; `ValueError`/`IndexError` are caught on line 101. -/
def selStep (files : List String) (raw : String) : PromptState × List Effect :=
  let choice := pyStrip raw
  if choice = "0" ∨ choice = "" then (.exited, [])
  else if pyLower choice = "a" then (.awaitingAction .bulk, [])
  else
    match pyInt? choice with
    | none => (.awaitingSelection, [.invalidSelection])
    | some i =>
      match pyIndex files (i - 1) with
      | none => (.awaitingSelection, [.invalidSelection])
      | some f => (.awaitingAction (.single f), [])

/-- The action prompt of lines 85-90 (bulk) and 95-100 (single file): a
recognized verb triggers execution; anything else prints the
invalid-action message; either way control returns to the top of the
`while` loop, i.e. to the selection prompt. -/
def actStep (ok : String → String → Bool) (files : List String)
    (target : SelTarget) (raw : String) : PromptState × List Effect :=
  let action := pyLower (pyStrip raw)
  if action ∈ validActions then
    match target with
    | .bulk => (.awaitingSelection, files.map (fun f => execute_docker_compose_command ok f action))
    | .single f => (.awaitingSelection, [execute_docker_compose_command ok f action])
  else (.awaitingSelection, [.invalidAction])

/-- One input token consumed by `prompt_user_action`'s loop, from whichever
prompt is active. -/
def promptStep (ok : String → String → Bool) (files : List String)
    (st : PromptState) (inp : String) : PromptState × List Effect :=
  match st with
  | .awaitingSelection => selStep files inp
  | .awaitingAction target => actStep ok files target inp
  | .exited => (.exited, [])

/-! ## `find_docker_compose_files` (source lines 12-31)

The filesystem is a finite tree; `os.walk` top-down with in-place pruning
of `dirnames` becomes structural recursion.  `re.search(pattern, dirpath)`
is an oracle `m : pattern → dirpath → Bool`.  `os.sep` is `"/"`.  The
walk keeps `dirpath = root ++ suffix`, so `dirpath[len(root_path):]` is
exactly `suffix`. -/

inductive FSTree where
  | node (name : String) (hasCompose : Bool) (children : List FSTree)

def FSTree.name : FSTree → String
  | .node n _ _ => n

/-- `dirpath[len(root_path):].count(os.sep)` (line 21): occurrences of
`'/'` in the part of the path below the root. -/
def countSepStr (s : String) : Nat :=
  s.data.count '/'

/-- The body of the `os.walk` loop (lines 19-30), recursing from the
directory `root ++ suffix`: if the depth bound holds, an exclusion match
prunes the whole subtree (lines 23-25); otherwise the directory is scanned
for `docker-compose.yml` (lines 27-28) and its children are walked; at or
beyond `max_depth` the children are pruned and the directory is not
scanned (lines 29-30). -/
def findFrom (m : String → String → Bool) (excl : List String) (maxDepth : Nat)
    (root : String) : String → FSTree → List String
  | suffix, .node _ hasCompose children =>
    if countSepStr suffix < maxDepth then
      if excl.any (fun pat => m pat (root ++ suffix)) then []
      else
        (if hasCompose then [root ++ suffix ++ "/docker-compose.yml"] else [])
          ++ children.attach.flatMap
              (fun c => findFrom m excl maxDepth root (suffix ++ "/" ++ c.1.name) c.1)
    else []
termination_by _ t => sizeOf t
decreasing_by
  have := List.sizeOf_lt_of_mem c.2
  simp only [FSTree.node.sizeOf_spec]
  omega

/-- `find_docker_compose_files(root_path, max_depth, exclude_patterns)`
(lines 12-31), started at the root directory (empty suffix). -/
def find_docker_compose_files (m : String → String → Bool) (excl : List String)
    (maxDepth : Nat) (root : String) (tree : FSTree) : List String :=
  findFrom m excl maxDepth root "" tree

/-! ## Helper lemmas -/

theorem splitOnChar_ne_nil (sep : Char) (cs : List Char) : splitOnChar sep cs ≠ [] := by
  induction cs with
  | nil => simp [splitOnChar]
  | cons c rest ih =>
    simp only [splitOnChar]
    split
    · simp
    · match h : splitOnChar sep rest with
      | [] => simp
      | hd :: tl => simp

theorem splitOnChar_head_no_sep (sep : Char) (cs : List Char)
    (h : ∀ c ∈ cs, c ≠ sep) : (splitOnChar sep cs).getD 0 [] = cs := by
  induction cs with
  | nil => simp [splitOnChar]
  | cons c rest ih =>
    have hc : c ≠ sep := h c (by simp)
    have hrest : ∀ x ∈ rest, x ≠ sep := fun x hx => h x (by simp [hx])
    simp only [splitOnChar, if_neg hc]
    match hr : splitOnChar sep rest with
    | [] => exact absurd hr (splitOnChar_ne_nil sep rest)
    | hd :: tl =>
      have := ih hrest
      rw [hr] at this
      simp_all

theorem splitOnChar_head_before_sep (sep : Char) (pre post : List Char)
    (h : ∀ c ∈ pre, c ≠ sep) :
    (splitOnChar sep (pre ++ sep :: post)).getD 0 [] = pre := by
  induction pre with
  | nil => simp [splitOnChar]
  | cons c rest ih =>
    have hc : c ≠ sep := h c (by simp)
    have hrest : ∀ x ∈ rest, x ≠ sep := fun x hx => h x (by simp [hx])
    simp only [List.cons_append, splitOnChar, if_neg hc]
    match hr : splitOnChar sep (rest ++ sep :: post) with
    | [] => exact absurd hr (splitOnChar_ne_nil sep _)
    | hd :: tl =>
      have := ih hrest
      rw [hr] at this
      simp_all

theorem string_mk_data (s : String) : String.mk s.data = s := rfl

theorem countSepStr_append (a b : String) :
    countSepStr (a ++ b) = countSepStr a + countSepStr b := by
  simp [countSepStr, String.data_append, List.count_append]

theorem flattenRunningPorts_mem (running : List (String × List String)) (p : String) :
    p ∈ flattenRunningPorts running ↔ ∃ cp ∈ running, p ∈ cp.2 := by
  simp only [flattenRunningPorts]
  constructor
  · intro h
    obtain ⟨l, hl, hp⟩ := List.mem_flatten.mp h
    obtain ⟨cp, hcp, rfl⟩ := List.mem_map.mp hl
    exact ⟨cp, hcp, hp⟩
  · rintro ⟨cp, hcp, hp⟩
    exact List.mem_flatten.mpr ⟨cp.2, List.mem_map.mpr ⟨cp, hcp, rfl⟩, hp⟩

theorem unusedReport_entries_nonempty
    (index : List (String × List (String × List String)))
    (running : List (String × List String)) :
    ∀ e ∈ unusedReport index running, e.2.2 ≠ [] := by
  intro e he
  simp only [unusedReport, List.mem_flatMap, List.mem_filterMap] at he
  obtain ⟨fs, _, sp, _, hif⟩ := he
  by_cases hu : (unusedPortsFor sp.2 running).isEmpty
  · rw [if_pos hu] at hif
    exact absurd hif (by simp)
  · rw [if_neg hu] at hif
    obtain rfl : (fs.1, sp.1, unusedPortsFor sp.2 running) = e := Option.some_inj.mp hif
    simpa [List.isEmpty_iff] using hu

theorem unusedReport_mem_of
    (index : List (String × List (String × List String)))
    (running : List (String × List String))
    (f : String) (svcs : List (String × List String))
    (s : String) (ports : List String)
    (hf : (f, svcs) ∈ index) (hs : (s, ports) ∈ svcs)
    (hne : unusedPortsFor ports running ≠ []) :
    (f, s, unusedPortsFor ports running) ∈ unusedReport index running := by
  simp only [unusedReport, List.mem_flatMap]
  refine ⟨(f, svcs), hf, ?_⟩
  simp only [List.mem_filterMap]
  refine ⟨(s, ports), hs, ?_⟩
  rw [if_neg (by simpa [List.isEmpty_iff] using hne)]

theorem unusedPortsFor_eq_spec (declared : List String)
    (running : List (String × List String)) :
    unusedPortsFor declared running = specUnusedPorts declared running := by
  unfold unusedPortsFor specUnusedPorts
  apply List.filter_congr
  intro p _
  rw [decide_eq_decide, flattenRunningPorts_mem]
  push_neg
  exact Iff.rfl

theorem colon_data : (":" : String).data = [':'] := rfl

theorem get_ports_entries (content : String → FileContent) (files : List String) :
    ∀ e ∈ get_ports_from_docker_compose content files,
      e.1 ∈ files ∧ ∃ svcs, content e.1 = FileContent.doc svcs
        ∧ buildFilePorts svcs = some e.2 ∧ e.2 ≠ [] := by
  induction files with
  | nil => intro e he; simp [get_ports_from_docker_compose] at he
  | cons f rest ih =>
    intro e he
    cases hc : content f with
    | unreadable =>
      simp only [get_ports_from_docker_compose, hc] at he
      obtain ⟨h1, h2⟩ := ih e he
      exact ⟨by simp [h1], h2⟩
    | doc services =>
      simp only [get_ports_from_docker_compose, hc] at he
      cases hb : buildFilePorts services with
      | none =>
        simp only [hb] at he
        obtain ⟨h1, h2⟩ := ih e he
        exact ⟨by simp [h1], h2⟩
      | some fp =>
        simp only [hb] at he
        by_cases hemp : fp.isEmpty
        · rw [if_pos hemp] at he
          obtain ⟨h1, h2⟩ := ih e he
          exact ⟨by simp [h1], h2⟩
        · rw [if_neg hemp] at he
          rcases List.mem_cons.mp he with rfl | hmem
          · exact ⟨by simp, services, hc, hb, by simpa [List.isEmpty_iff] using hemp⟩
          · obtain ⟨h1, h2⟩ := ih e hmem
            exact ⟨by simp [h1], h2⟩

/-! ## Claim theorems -/

/-- C1: for every (file, service) pair of the compose index, the
reconciliation of `list_ports` (lines 119-125) computes exactly the
declared port list minus the union of all running-container port lists,
in declaration order and without deduplication (`unusedPortsFor` agrees
with the spec-side `specUnusedPorts`); the result is a sublist of the
declared ports; a nonempty result appears in the report; and every entry
of the report has a nonempty port list (empty results are omitted). -/
theorem unusedReport_matches_spec
    (index : List (String × List (String × List String)))
    (running : List (String × List String))
    (f : String) (svcs : List (String × List String))
    (s : String) (ports : List String)
    (hf : (f, svcs) ∈ index) (hs : (s, ports) ∈ svcs) :
    unusedPortsFor ports running = specUnusedPorts ports running
    ∧ (unusedPortsFor ports running).Sublist ports
    ∧ (unusedPortsFor ports running ≠ [] →
        (f, s, unusedPortsFor ports running) ∈ unusedReport index running)
    ∧ (∀ e ∈ unusedReport index running, e.2.2 ≠ []) :=
  ⟨unusedPortsFor_eq_spec ports running,
   List.filter_sublist ports,
   fun hne => unusedReport_mem_of index running f svcs s ports hf hs hne,
   unusedReport_entries_nonempty index running⟩

theorem unusedReport_matches_spec_witness :
    ("f", "web", ["9090"]) ∈
      unusedReport [("f", [("web", ["8080", "9090"])])] [("c1", ["8080"])] := by
  have h := (unusedReport_matches_spec [("f", [("web", ["8080", "9090"])])]
      [("c1", ["8080"])] "f" [("web", ["8080", "9090"])] "web" ["8080", "9090"]
      (by simp) (by simp)).2.2.1 (by decide)
  have e : unusedPortsFor ["8080", "9090"] [("c1", ["8080"])] = ["9090"] := by decide
  rwa [e] at h

/-- C3 counterexample: the claim says a bind-address-prefixed token such
as `"IP:HOST:CONTAINER"` retains the host-side port; the code
(`port.split(":")[0]`, line 44) retains the bind address instead. -/
theorem hostSeg_bind_address_cex :
    hostSeg "127.0.0.1:8080:80" = "127.0.0.1"
    ∧ hostSeg "127.0.0.1:8080:80" ≠ "8080" := by decide

/-- C3 amended: extraction always yields the first colon-delimited
segment: `HOST` for `"HOST:CONTAINER"` and `"HOST:CONTAINER/proto"` (any
colon-free first segment), the whole token when it has no colon, and
hence the bind address — not the host-side port — for a
bind-address-prefixed token. -/
theorem hostSeg_first_segment (host rest : String)
    (hh : ∀ c ∈ host.data, c ≠ ':') :
    hostSeg (host ++ ":" ++ rest) = host ∧ hostSeg host = host := by
  constructor
  · have hdata : (host ++ ":" ++ rest).data = host.data ++ ':' :: rest.data := by
      simp [String.data_append, colon_data]
    show String.mk ((splitOnChar ':' (host ++ ":" ++ rest).data).getD 0 []) = host
    rw [hdata, splitOnChar_head_before_sep ':' host.data rest.data hh]
  · show String.mk ((splitOnChar ':' host.data).getD 0 []) = host
    rw [splitOnChar_head_no_sep ':' host.data hh]

theorem hostSeg_first_segment_witness :
    hostSeg ("8080" ++ ":" ++ "80/udp") = "8080" :=
  (hostSeg_first_segment "8080" "80/udp" (by decide)).1

/-- C8: with no running containers the subtrahend is empty, so every
declared service keeps its full declared port list, and (when it is
nonempty) that full list is what the report shows. -/
theorem empty_running_keeps_all_ports
    (index : List (String × List (String × List String)))
    (f : String) (svcs : List (String × List String))
    (s : String) (ports : List String)
    (hf : (f, svcs) ∈ index) (hs : (s, ports) ∈ svcs) :
    unusedPortsFor ports [] = ports
    ∧ (ports ≠ [] → (f, s, ports) ∈ unusedReport index []) := by
  have he : unusedPortsFor ports [] = ports := by
    simp [unusedPortsFor, flattenRunningPorts]
  refine ⟨he, fun hne => ?_⟩
  have h := unusedReport_mem_of index [] f svcs s ports hf hs (by rw [he]; exact hne)
  rwa [he] at h

theorem empty_running_keeps_all_ports_witness :
    ("f", "web", ["8080", "9090"]) ∈
      unusedReport [("f", [("web", ["8080", "9090"])])] [] :=
  (empty_running_keeps_all_ports [("f", [("web", ["8080", "9090"])])]
    "f" [("web", ["8080", "9090"])] "web" ["8080", "9090"]
    (by simp) (by simp)).2 (by decide)

/-- C10: port extraction is per-file atomic.  Every key of the returned
index is one of the input files; every entry was produced by a complete,
successful extraction of that file's document (never a partial map); and
a file whose processing raises anywhere (unreadable document, or any
service whose ports extraction fails) contributes no entry at all. -/
theorem get_ports_per_file_atomic (content : String → FileContent) (files : List String) :
    (∀ e ∈ get_ports_from_docker_compose content files, e.1 ∈ files)
    ∧ (∀ e ∈ get_ports_from_docker_compose content files,
        ∃ svcs, content e.1 = FileContent.doc svcs
          ∧ buildFilePorts svcs = some e.2 ∧ e.2 ≠ [])
    ∧ (∀ f, fileFails (content f) →
        ∀ mp, (f, mp) ∉ get_ports_from_docker_compose content files) := by
  refine ⟨fun e he => (get_ports_entries content files e he).1,
          fun e he => (get_ports_entries content files e he).2,
          fun f hf mp hmem => ?_⟩
  obtain ⟨svcs, hdoc, hbuild, _⟩ := (get_ports_entries content files _ hmem).2
  rw [hdoc] at hf
  have hnone : buildFilePorts svcs = none := hf
  rw [hbuild] at hnone
  exact Option.noConfusion hnone

theorem get_ports_per_file_atomic_witness :
    ("bad", [("s", ["1"])]) ∉ get_ports_from_docker_compose
      (fun f => if f = "bad"
        then FileContent.doc [("s", PortsField.present [PortToken.str "1:2", PortToken.nonStr])]
        else FileContent.doc [("s", PortsField.present [PortToken.str "3:4"])])
      ["bad", "good"] := by
  apply (get_ports_per_file_atomic _ ["bad", "good"]).2.2 "bad"
  exact (by decide :
    buildFilePorts [("s", PortsField.present [PortToken.str "1:2", PortToken.nonStr])] = none)

/-- C4 counterexample: the claim says an unrecognized action token
re-prompts for the action only, keeping the file selection.  In the
source the invalid-action message (lines 90, 100) falls through to the
top of the `while` loop, so the next prompt is the selection prompt and
the selection is discarded. -/
theorem invalid_action_cex :
    (actStep (fun _ _ => true) ["f1"] (SelTarget.single "f1") "sotp").1
      = PromptState.awaitingSelection
    ∧ (actStep (fun _ _ => true) ["f1"] (SelTarget.single "f1") "sotp").1
      ≠ PromptState.awaitingAction (SelTarget.single "f1") := by decide

/-- C4 amended: an action token that is not start/stop/restart
(case-insensitively after trimming) executes nothing, emits the
invalid-action diagnostic, and returns control to the top of the loop —
the operator is re-prompted for the file selection (the prior selection
is discarded), not just for the action. -/
theorem invalid_action_back_to_selection (ok : String → String → Bool)
    (files : List String) (target : SelTarget) (raw : String)
    (hv : pyLower (pyStrip raw) ∉ validActions) :
    actStep ok files target raw = (.awaitingSelection, [.invalidAction]) := by
  simp [actStep, hv]

theorem invalid_action_back_to_selection_witness :
    actStep (fun _ _ => true) ["f1", "f2"] SelTarget.bulk "launch"
      = (PromptState.awaitingSelection, [Effect.invalidAction]) :=
  invalid_action_back_to_selection (fun _ _ => true) ["f1", "f2"]
    SelTarget.bulk "launch" (by decide)

/-- C5 counterexample: the claim says every selection token that is not
the quit token, not the bulk token and not a valid 1-based index
re-prompts without reaching the action prompt.  `"-0"` is none of those,
yet `int("-0") = 0` and Python indexing `files[0 - 1]` selects the last
file, so the dispatcher proceeds to the action prompt. -/
theorem selection_negative_index_cex :
    selStep ["f1", "f2"] "-0"
      = (PromptState.awaitingAction (SelTarget.single "f2"), [])
    ∧ (selStep ["f1", "f2"] "-0").1 ≠ PromptState.awaitingSelection := by decide

/-- C5 amended: a selection token that is not the quit token, not the
bulk token, and not an integer token i for which `files[i - 1]` is valid
under Python index semantics (negative values count from the end of the
list) re-prompts for a selection with the invalid-selection diagnostic,
executing nothing and without crash; but an integer token whose value
selects an element under those semantics — including negative tokens
such as `"-0"` — proceeds to the action prompt. -/
theorem invalid_selection_reprompts (files : List String) (raw : String)
    (h0 : ¬(pyStrip raw = "0" ∨ pyStrip raw = ""))
    (ha : ¬pyLower (pyStrip raw) = "a")
    (hidx : pyInt? (pyStrip raw) = none ∨
      ∃ i, pyInt? (pyStrip raw) = some i ∧ pyIndex files (i - 1) = none) :
    selStep files raw = (.awaitingSelection, [.invalidSelection]) := by
  simp only [selStep, if_neg h0, if_neg ha]
  rcases hidx with hn | ⟨i, hi, hix⟩
  · simp only [hn]
  · simp only [hi, hix]

theorem invalid_selection_reprompts_witness :
    selStep ["f1", "f2"] " 5 "
      = (PromptState.awaitingSelection, [Effect.invalidSelection])
    ∧ selStep ["f1", "f2"] "abc"
      = (PromptState.awaitingSelection, [Effect.invalidSelection]) :=
  ⟨invalid_selection_reprompts ["f1", "f2"] " 5 " (by decide) (by decide)
      (Or.inr ⟨5, by decide, by decide⟩),
   invalid_selection_reprompts ["f1", "f2"] "abc" (by decide) (by decide)
      (Or.inl (by decide))⟩

/-- C9: in bulk mode a recognized action is applied to every discovered
file sequentially in discovery order; each run is reported with its own
success flag, and one file's failure (a false success flag from the
subprocess oracle, caught inside `execute_docker_compose_command`) does
not prevent the runs on the remaining files. -/
theorem bulk_attempts_every_file (ok : String → String → Bool)
    (files : List String) (raw : String)
    (hv : pyLower (pyStrip raw) ∈ validActions) :
    actStep ok files .bulk raw
      = (.awaitingSelection,
         files.map (fun f =>
           Effect.ran f (pyLower (pyStrip raw)) (ok f (pyLower (pyStrip raw)))))
    ∧ ∀ f ∈ files,
        Effect.ran f (pyLower (pyStrip raw)) (ok f (pyLower (pyStrip raw)))
          ∈ (actStep ok files .bulk raw).2 := by
  have h : actStep ok files .bulk raw
      = (.awaitingSelection,
         files.map (fun f =>
           Effect.ran f (pyLower (pyStrip raw)) (ok f (pyLower (pyStrip raw))))) := by
    simp [actStep, hv, execute_docker_compose_command]
  refine ⟨h, fun f hf => ?_⟩
  rw [h]
  exact List.mem_map.mpr ⟨f, hf, rfl⟩

theorem bulk_attempts_every_file_witness :
    (actStep (fun f _ => decide (f ≠ "f2")) ["f1", "f2", "f3"] .bulk "stop").2
      = [Effect.ran "f1" "stop" true, Effect.ran "f2" "stop" false,
         Effect.ran "f3" "stop" true] := by
  have h := (bulk_attempts_every_file (fun f _ => decide (f ≠ "f2"))
      ["f1", "f2", "f3"] "stop" (by decide)).1
  rw [h]
  decide

/-- C2 counterexample: the claim says a directory at depth exactly
`max_depth` is still scanned for `docker-compose.yml`.  With
`max_depth = 1`, the child directory `r/a` has depth exactly 1, holds a
compose file, and the scan returns nothing: line 21 guards the filename
check of line 27 by `depth < max_depth`, so a directory at the boundary
is pruned without being scanned. -/
theorem maxDepth_boundary_cex :
    find_docker_compose_files (fun _ _ => false) [] 1 "r"
      (FSTree.node "r" false [FSTree.node "a" true []]) = []
    ∧ "r/a/docker-compose.yml" ∉ find_docker_compose_files (fun _ _ => false) [] 1 "r"
      (FSTree.node "r" false [FSTree.node "a" true []]) := by
  have h : find_docker_compose_files (fun _ _ => false) [] 1 "r"
      (FSTree.node "r" false [FSTree.node "a" true []]) = [] := by
    simp [find_docker_compose_files, findFrom, countSepStr]
  exact ⟨h, by rw [h]; simp⟩

/-- C2 amended: a directory whose depth is strictly below `max_depth` is
scanned for `docker-compose.yml` (when no exclusion pattern matches) and
descended into; a directory whose depth is `max_depth` or more — in
particular exactly `max_depth` — contributes nothing: it is neither
scanned for a compose file nor descended into. -/
theorem maxDepth_boundary_amended (m : String → String → Bool) (excl : List String)
    (maxDepth : Nat) (root suffix name : String) (hasCompose : Bool)
    (children : List FSTree) :
    (maxDepth ≤ countSepStr suffix →
      findFrom m excl maxDepth root suffix (.node name hasCompose children) = [])
    ∧ (countSepStr suffix < maxDepth →
       excl.any (fun pat => m pat (root ++ suffix)) = false →
       hasCompose = true →
       (root ++ suffix ++ "/docker-compose.yml")
         ∈ findFrom m excl maxDepth root suffix (.node name hasCompose children)) := by
  constructor
  · intro hd
    simp only [findFrom]
    rw [if_neg (by omega)]
  · intro hd hex hc
    simp only [findFrom]
    rw [if_pos hd, if_neg (by simp [hex]), hc]
    exact List.mem_append_left _ (by simp)

theorem maxDepth_boundary_amended_witness :
    findFrom (fun _ _ => false) [] 1 "r" "/a" (FSTree.node "a" true []) = []
    ∧ ("r" ++ "" ++ "/docker-compose.yml")
        ∈ findFrom (fun _ _ => false) [] 1 "r" "" (FSTree.node "r" true []) :=
  ⟨(maxDepth_boundary_amended (fun _ _ => false) [] 1 "r" "/a" "a" true []).1 (by decide),
   (maxDepth_boundary_amended (fun _ _ => false) [] 1 "r" "" "r" true []).2
     (by decide) (by decide) rfl⟩

theorem FSTree.inductionOn (P : FSTree → Prop)
    (node : ∀ name hb children, (∀ c ∈ children, P c) → P (.node name hb children)) :
    (t : FSTree) → P t
  | .node name hb children =>
    node name hb children (fun c hmem => FSTree.inductionOn P node c)
termination_by t => sizeOf t
decreasing_by
  have := List.sizeOf_lt_of_mem hmem
  simp only [FSTree.node.sizeOf_spec]
  omega

theorem string_append_assoc (a b c : String) : a ++ b ++ c = a ++ (b ++ c) := by
  apply String.ext
  simp [String.data_append]

theorem findFrom_depth_le (m : String → String → Bool) (excl : List String)
    (maxDepth : Nat) (root : String) :
    ∀ t : FSTree, ∀ suffix p, p ∈ findFrom m excl maxDepth root suffix t →
      ∃ s, p = root ++ s ∧ countSepStr s ≤ maxDepth := by
  intro t
  induction t using FSTree.inductionOn with
  | node name hb children ihc =>
    intro suffix p hp
    simp only [findFrom] at hp
    by_cases hd : countSepStr suffix < maxDepth
    · rw [if_pos hd] at hp
      by_cases hex : excl.any (fun pat => m pat (root ++ suffix)) = true
      · rw [if_pos hex] at hp
        exact absurd hp (List.not_mem_nil p)
      · rw [if_neg hex] at hp
        rcases List.mem_append.mp hp with hown | hsub
        · have hp2 : p = root ++ suffix ++ "/docker-compose.yml" := by
            cases hb
            · simp at hown
            · simpa using hown
          refine ⟨suffix ++ "/docker-compose.yml",
            by rw [hp2, string_append_assoc], ?_⟩
          rw [countSepStr_append]
          have h1 : countSepStr "/docker-compose.yml" = 1 := by decide
          omega
        · obtain ⟨c, _, hpc⟩ := List.mem_flatMap.mp hsub
          exact ihc c.1 c.2 _ p hpc
    · rw [if_neg hd] at hp
      exact absurd hp (List.not_mem_nil p)

/-- C6: every path returned by the scan lies at most `max_depth`
separators below the root: it is `root ++ s` for a relative part `s`
with at most `max_depth` occurrences of `os.sep`. -/
theorem scan_depth_bounded (m : String → String → Bool) (excl : List String)
    (maxDepth : Nat) (root : String) (tree : FSTree) (p : String)
    (hp : p ∈ find_docker_compose_files m excl maxDepth root tree) :
    ∃ s, p = root ++ s ∧ countSepStr s ≤ maxDepth :=
  findFrom_depth_le m excl maxDepth root tree "" p hp

theorem scan_depth_bounded_witness :
    ∃ s, "r/docker-compose.yml" = "r" ++ s ∧ countSepStr s ≤ 2 :=
  scan_depth_bounded (fun _ _ => false) [] 2 "r" (FSTree.node "r" true [])
    "r/docker-compose.yml"
    (by simp [find_docker_compose_files, findFrom, countSepStr])

/-- C7: a directory whose path string is matched by some exclusion
pattern is pruned before anything else happens there (lines 23-25): the
walk from that directory produces nothing, so neither its own
`docker-compose.yml` nor any file below it appears in the result, and
its subtree is never visited. -/
theorem excluded_dir_contributes_nothing (m : String → String → Bool)
    (excl : List String) (maxDepth : Nat) (root suffix : String) (t : FSTree)
    (hex : ∃ pat ∈ excl, m pat (root ++ suffix) = true) :
    findFrom m excl maxDepth root suffix t = [] := by
  cases t with
  | node name hb children =>
    have hany : excl.any (fun pat => m pat (root ++ suffix)) = true :=
      List.any_eq_true.mpr hex
    simp only [findFrom, hany]
    split <;> rfl

theorem excluded_dir_contributes_nothing_witness :
    findFrom (fun pat d => decide (pat = "_bk" ∧ d = "r/a_bk")) ["_bk"] 3 "r" "/a_bk"
      (FSTree.node "a_bk" true [FSTree.node "b" true []]) = [] :=
  excluded_dir_contributes_nothing (fun pat d => decide (pat = "_bk" ∧ d = "r/a_bk"))
    ["_bk"] 3 "r" "/a_bk" (FSTree.node "a_bk" true [FSTree.node "b" true []])
    ⟨"_bk", by decide, by decide⟩

end PortScan
